import Mathlib

/-!
Shallow embedding of the `EnglishBot` Telegram vocabulary trainer
(`english_bot.py`).  The PostgreSQL tables become lists of records, the
SQL statements become pure functions on a `DB` record, and the three
in-memory per-user dictionaries (`user_states`, `temp_data`, `quiz_data`)
become association lists keyed by the Telegram user id.  SQL
`ORDER BY RANDOM()` draws and `random.shuffle` are modelled by passing
the randomly permuted row lists / the shuffle function in as parameters
(an `Oracle`), constrained by `List.Perm` side conditions where a claim
needs them.  The embedding is of the error-free executions: every
`try/except` block is modelled by its non-exceptional branch, and the
two statements that can raise `KeyError`/`TypeError` before any mutation
(the unguarded `temp_data[user_id]['russian']` access and the
`fetchone()[0]` on a vanished word row) are modelled by a distinguished
`Reply.crash` result that leaves the state untouched.
-/

namespace EnglishBot

/-- Row of the `words` table.  Note that the DDL in `create_tables` puts
no UNIQUE constraint on `(russian_word, english_word)`. -/
structure Word where
  id : Nat
  russian : String
  english : String
  isCommon : Bool
deriving DecidableEq, Repr

/-- Row of the `users` table (`telegram_id` is declared UNIQUE). -/
structure UserRow where
  id : Nat
  tgId : Nat
  name : String
deriving DecidableEq, Repr

/-- Row of the `user_words` table (UNIQUE on `(user_id, word_id)`,
`correct_count` and `attempt_count` default to 0). -/
structure UserWord where
  userId : Nat
  wordId : Nat
  correctCount : Nat
  attemptCount : Nat
deriving DecidableEq, Repr

/-- The database: the three tables plus the SERIAL id counters. -/
structure DB where
  users : List UserRow
  words : List Word
  userWords : List UserWord
  nextUserId : Nat
  nextWordId : Nat
deriving DecidableEq, Repr

def emptyDB : DB := ⟨[], [], [], 1, 1⟩

/-- Lowercasing as used by Python `str.lower()` on the strings this bot
handles: ASCII letters and the Russian Cyrillic alphabet. -/
def lowerChar (c : Char) : Char :=
  if 'A' ≤ c ∧ c ≤ 'Z' then Char.ofNat (c.toNat + 32)
  else if c = 'Ё' then 'ё'
  else if 'А' ≤ c ∧ c ≤ 'Я' then Char.ofNat (c.toNat + 32)
  else c

def pyLower (s : String) : String := ⟨s.data.map lowerChar⟩

/-- `str.strip()`: drop leading and trailing whitespace. -/
def pyStrip (s : String) : String :=
  ⟨((s.data.dropWhile Char.isWhitespace).reverse.dropWhile
      Char.isWhitespace).reverse⟩

/-- `message.text.strip().lower()` as performed by the message handler. -/
def pyStripLower (s : String) : String := pyLower (pyStrip s)

/-- The fixed seed list of `fill_common_words` (note the uppercase "I"). -/
def commonWordsList : List (String × String) :=
  [("красный", "red"), ("синий", "blue"), ("зеленый", "green"),
   ("желтый", "yellow"), ("черный", "black"), ("белый", "white"),
   ("я", "I"), ("ты", "you"), ("он", "he"), ("она", "she")]

/-- `INSERT INTO words (russian_word, english_word, is_common) VALUES (...)
RETURNING id`. -/
def insertWord (db : DB) (r e : String) (c : Bool) : DB × Nat :=
  ({ db with words := db.words ++ [⟨db.nextWordId, r, e, c⟩],
             nextWordId := db.nextWordId + 1 }, db.nextWordId)

/-- `fill_common_words`: if `COUNT(*) FROM words WHERE is_common = TRUE`
is zero, insert every pair of the fixed list (no normalization, no
duplicate check against existing non-common rows). -/
def fill_common_words (db : DB) : DB :=
  if (db.words.filter (·.isCommon)).length == 0 then
    commonWordsList.foldl (fun d p => (insertWord d p.1 p.2 true).1) db
  else db

/-- `SELECT id FROM users WHERE telegram_id = %s` followed by
`fetchone()` (first matching row). -/
def get_user_id (db : DB) (tg : Nat) : Option Nat :=
  (db.users.find? (fun u => u.tgId == tg)).map (·.id)

/-- `register_user`: look up by `telegram_id`; if absent, insert the
user and insert a `user_words` row for every word with
`is_common = TRUE`; return the internal user id. -/
def register_user (db : DB) (tg : Nat) (name : String) : DB × Nat :=
  match db.users.find? (fun u => u.tgId == tg) with
  | some u => (db, u.id)
  | none =>
    let uid := db.nextUserId
    let db1 : DB := { db with users := db.users ++ [⟨uid, tg, name⟩],
                              nextUserId := uid + 1 }
    ({ db1 with userWords :=
        db1.userWords ++
          (db1.words.filter (·.isCommon)).map (fun w => ⟨uid, w.id, 0, 0⟩) },
     uid)

/-- First `user_words` row for `(user_id, word_id)` (the table is
declared UNIQUE on that pair). -/
def entryOf (db : DB) (uid wid : Nat) : Option UserWord :=
  db.userWords.find? (fun uw => uw.userId == uid && uw.wordId == wid)

/-- `SELECT COUNT(*) FROM user_words WHERE user_id = %s`. -/
def userWordCount (db : DB) (uid : Nat) : Nat :=
  (db.userWords.filter (fun uw => uw.userId == uid)).length

/-- `add_word`: look up the exact `(russian_word, english_word)` pair
(verbatim string comparison — the caller lowercases, the store does
not); create the word if absent; `INSERT ... ON CONFLICT (user_id,
word_id) DO NOTHING` the association; return success and the user's
word count. -/
def add_word (db : DB) (uid : Nat) (r e : String) : DB × Bool × Nat :=
  let found := db.words.find? (fun w => w.russian == r && w.english == e)
  let step1 : DB × Nat :=
    match found with
    | some w => (db, w.id)
    | none => insertWord db r e false
  let db1 := step1.1
  let wid := step1.2
  let db2 : DB :=
    if db1.userWords.any (fun uw => uw.userId == uid && uw.wordId == wid) then db1
    else { db1 with userWords := db1.userWords ++ [⟨uid, wid, 0, 0⟩] }
  (db2, true, userWordCount db2 uid)

/-- `delete_word`: `DELETE FROM user_words WHERE user_id = %s AND
word_id = %s`; returns `True` whenever the statement executes,
regardless of how many rows it removed. -/
def delete_word (db : DB) (uid wid : Nat) : DB × Bool :=
  ({ db with userWords :=
      db.userWords.filter (fun uw => !(uw.userId == uid && uw.wordId == wid)) },
   true)

/-- `get_user_words`: `SELECT w.id, w.russian_word, w.english_word FROM
words w JOIN user_words uw ON w.id = uw.word_id WHERE uw.user_id = %s`
(row order unspecified by SQL; modelled in `user_words` order). -/
def get_user_words (db : DB) (uid : Nat) : List (Nat × String × String) :=
  db.userWords.filterMap (fun uw =>
    if uw.userId == uid then
      (db.words.find? (fun w => w.id == uw.wordId)).map
        (fun w => (w.id, w.russian, w.english))
    else none)

/-- `get_random_word`: `... ORDER BY RANDOM() LIMIT 1`, modelled by an
index into the user's word list supplied by the random oracle. -/
def get_random_word (db : DB) (uid : Nat) (idx : Nat) :
    Option (Nat × String × String) :=
  let l := get_user_words db uid
  l.get? (idx % l.length)

/-- Rows produced by the step-1 distractor query of `get_options`:
`words JOIN user_words` for this user, excluding only the correct
word's id (not its text). -/
def eligible1 (db : DB) (cid uid : Nat) : List Word :=
  db.userWords.filterMap (fun uw =>
    if uw.userId == uid then
      match db.words.find? (fun w => w.id == uw.wordId) with
      | some w => if w.id == cid then none else some w
      | none => none
    else none)

/-- Rows eligible for the top-up query of `get_options`: all words
excluding the correct word's id and the correct answer's exact text
(but not excluding step-1 picks). -/
def eligible2 (db : DB) (cid : Nat) (correct : String) : List Word :=
  db.words.filter (fun w => !(w.id == cid) && !(w.english == correct))

/-- The distractor texts of `get_options`: up to 3 rows of the randomly
ordered step-1 query (`e1`, `LIMIT 3`), topped up with rows of the
randomly ordered global query (`e2`, `LIMIT 3 - len(other_answers)`)
when fewer than 3 were found. -/
def distractors (e1 e2 : List Word) : List String :=
  let others0 := (e1.take 3).map (·.english)
  if others0.length < 3 then
    others0 ++ (e2.take (3 - others0.length)).map (·.english)
  else others0

/-- `get_options`: fetch the correct answer, build the distractors, then
shuffle `correct :: distractors`.  `e1`, `e2` and the shuffle come from
the random oracle; `step1Valid`/`step2Valid`/`shuffleValid` state what
the SQL guarantees about them. -/
def get_options (db : DB) (cid uid : Nat) (e1 e2 : List Word)
    (sh : List String → List String) : List String × Option String :=
  match db.words.find? (fun w => w.id == cid) with
  | none => ([], none)
  | some cw => (sh (cw.english :: distractors e1 e2), some cw.english)

def step1Valid (db : DB) (cid uid : Nat) (e1 : List Word) : Prop :=
  e1.Perm (eligible1 db cid uid)

def step2Valid (db : DB) (cid : Nat) (correct : String) (e2 : List Word) : Prop :=
  e2.Perm (eligible2 db cid correct)

def shuffleValid (sh : List String → List String) : Prop :=
  ∀ l, (sh l).Perm l

/-- The per-row effect of the `UPDATE` in `update_word_stats`: rows
matching the `WHERE user_id = %s AND word_id = %s` clause get
`attempt_count + 1` and `correct_count + (1 if is_correct else 0)`. -/
def updEntry (uid wid : Nat) (isCorrect : Bool) (uw : UserWord) : UserWord :=
  if uw.userId == uid && uw.wordId == wid then
    { uw with attemptCount := uw.attemptCount + 1,
              correctCount := uw.correctCount + (if isCorrect then 1 else 0) }
  else uw

/-- `update_word_stats`: `UPDATE user_words SET attempt_count =
attempt_count + 1, correct_count = correct_count + %s WHERE user_id = %s
AND word_id = %s`; returns `True` whether or not any row matched. -/
def update_word_stats (db : DB) (uid wid : Nat) (isCorrect : Bool) :
    DB × Bool :=
  ({ db with userWords := db.userWords.map (updEntry uid wid isCorrect) },
   true)

/-- The per-user conversation states (`IDLE`, `ADDING_WORD_RUSSIAN`,
`ADDING_WORD_ENGLISH`, `DELETING_WORD`, `QUIZ`). -/
inductive UState where
  | idle
  | addingRussian
  | addingEnglish
  | deleting
  | quiz
deriving DecidableEq, Repr

/-- The per-user `temp_data` dictionary (its only ever-used key is
`'russian'`; `none` models a dictionary without that key, so the
unguarded `temp_data[user_id]['russian']` access can be seen to fail). -/
structure TempDict where
  russian : Option String
deriving DecidableEq, Repr

/-- Python-dict association list: first binding wins on lookup. -/
def lookupA {α : Type} (l : List (Nat × α)) (k : Nat) : Option α :=
  (l.find? (fun p => p.1 == k)).map (·.2)

/-- Python-dict update `d[k] = v`: replace the first binding of `k`,
or append a new one. -/
def setK {α : Type} : List (Nat × α) → Nat → α → List (Nat × α)
  | [], k, v => [(k, v)]
  | p :: t, k, v => if p.1 == k then (k, v) :: t else p :: setK t k v

/-- Python-dict deletion `del d[k]`. -/
def removeK {α : Type} (l : List (Nat × α)) (k : Nat) : List (Nat × α) :=
  l.filter (fun p => !(p.1 == k))

/-- The whole in-memory bot state: database plus the three per-user
dictionaries keyed by Telegram id. -/
structure BotState where
  db : DB
  userStates : List (Nat × UState)
  tempData : List (Nat × TempDict)
  quizData : List (Nat × Nat)
deriving DecidableEq, Repr

/-- `self.user_states.get(user_id, self.IDLE)`. -/
def stateOf (s : BotState) (uid : Nat) : UState :=
  (lookupA s.userStates uid).getD .idle

/-- An inbound Telegram message: `from_user.id`, a display name, text. -/
structure Msg where
  fromId : Nat
  name : String
  text : String
deriving DecidableEq, Repr

/-- One outbound `send_message` (identified by which handler branch
produced it); `crash` marks the two statements that raise an uncaught
exception before mutating anything. -/
inductive Reply where
  | welcome (name : String)
  | helpText
  | pleaseStart
  | noWordsForQuiz
  | quizPrompt (russian : String) (options : List String)
  | askRussian
  | askEnglish (russian : String)
  | wordAdded (russian english : String) (count : Nat)
  | addFailed
  | noWordsToDelete
  | chooseDelete (words : List (Nat × String × String))
  | deleted
  | deleteFailed
  | badDeleteFormat
  | noWords
  | wordsList (words : List (Nat × String × String))
  | quizError
  | answerCorrect (answer : String)
  | answerWrong (correct : String)
  | cancelled
  | chooseAction
  | crash
deriving DecidableEq, Repr

/-- The random draws a single dispatch may consume: the index for
`get_random_word`, the permuted row lists for the two `get_options`
queries, and the `random.shuffle` permutation. -/
structure Oracle where
  idx : Nat
  e1 : List Word
  e2 : List Word
  sh : List String → List String

/-- `re.search(r'ID: (\d+)', text)`: digits of the first occurrence of
`"ID: "` that is followed by at least one digit. -/
def digitsToNat (ds : List Char) : Nat :=
  ds.foldl (fun n c => n * 10 + (c.toNat - 48)) 0

def parseIdFrom : List Char → Option Nat
  | 'I' :: 'D' :: ':' :: ' ' :: tail =>
    let ds := tail.takeWhile Char.isDigit
    if ds.length > 0 then some (digitsToNat ds)
    else parseIdFrom ('D' :: ':' :: ' ' :: tail)
  | _ :: rest => parseIdFrom rest
  | [] => none

def parseDeleteId (t : String) : Option Nat := parseIdFrom t.data

/-- `_handle_start`: register (always succeeds in the error-free
embedding, since internal ids start at 1), set state to `IDLE`, greet. -/
def handle_start (s : BotState) (m : Msg) : BotState × Reply :=
  let r := register_user s.db m.fromId m.name
  ({ s with db := r.1,
            userStates := setK s.userStates m.fromId .idle },
   .welcome m.name)

/-- `_handle_quiz`: authenticated only; pick a random word, record it in
`quiz_data`, build the options, set state to `QUIZ`. -/
def handle_quiz (o : Oracle) (s : BotState) (m : Msg) : BotState × Reply :=
  match get_user_id s.db m.fromId with
  | none => (s, .pleaseStart)
  | some du =>
    match get_random_word s.db du o.idx with
    | none => (s, .noWordsForQuiz)
    | some (wid, rw, _ew) =>
      let s1 : BotState := { s with quizData := setK s.quizData m.fromId wid }
      let opts := (get_options s1.db wid du o.e1 o.e2 o.sh).1
      ({ s1 with userStates := setK s1.userStates m.fromId .quiz },
       .quizPrompt rw opts)

/-- `_handle_add_word`: sets `ADDING_WORD_RUSSIAN` and prompts — with no
authentication check. -/
def handle_add_word (s : BotState) (m : Msg) : BotState × Reply :=
  ({ s with userStates := setK s.userStates m.fromId .addingRussian },
   .askRussian)

/-- `_handle_delete_word`: authenticated only; list the user's words and
set `DELETING_WORD` (or report an empty list, state unchanged). -/
def handle_delete_word (s : BotState) (m : Msg) : BotState × Reply :=
  match get_user_id s.db m.fromId with
  | none => (s, .pleaseStart)
  | some du =>
    let ws := get_user_words s.db du
    if ws.isEmpty then (s, .noWordsToDelete)
    else ({ s with userStates := setK s.userStates m.fromId .deleting },
          .chooseDelete ws)

/-- `_handle_words_list`: authenticated only; read-only. -/
def handle_words_list (s : BotState) (m : Msg) : BotState × Reply :=
  match get_user_id s.db m.fromId with
  | none => (s, .pleaseStart)
  | some du =>
    let ws := get_user_words s.db du
    if ws.isEmpty then (s, .noWords) else (s, .wordsList ws)

/-- `_handle_cancel`: reset the state to `IDLE` and drop the `temp_data`
entry — `quiz_data` is not touched, and there is no authentication
check. -/
def handle_cancel (s : BotState) (m : Msg) : BotState × Reply :=
  ({ s with userStates := setK s.userStates m.fromId .idle,
            tempData := removeK s.tempData m.fromId },
   .cancelled)

/-- `_handle_messages`: the state-machine dispatch on free text. -/
def handle_messages (s : BotState) (m : Msg) : BotState × Reply :=
  match get_user_id s.db m.fromId with
  | none => (s, .pleaseStart)
  | some du =>
    match stateOf s m.fromId with
    | .addingRussian =>
      let rw := pyStripLower m.text
      let s1 : BotState := { s with tempData := setK s.tempData m.fromId ⟨some rw⟩ }
      ({ s1 with userStates := setK s1.userStates m.fromId .addingEnglish },
       .askEnglish rw)
    | .addingEnglish =>
      let ew := pyStripLower m.text
      match lookupA s.tempData m.fromId with
      | none => (s, .crash)
      | some t =>
        match t.russian with
        | none => (s, .crash)
        | some rw =>
          let a := add_word s.db du rw ew
          let rep := if a.2.1 then Reply.wordAdded rw ew a.2.2 else Reply.addFailed
          ({ s with db := a.1,
                    userStates := setK s.userStates m.fromId .idle,
                    tempData := removeK s.tempData m.fromId },
           rep)
    | .deleting =>
      match parseDeleteId m.text with
      | some wid =>
        let d := delete_word s.db du wid
        let rep := if d.2 then Reply.deleted else Reply.deleteFailed
        ({ s with db := d.1,
                  userStates := setK s.userStates m.fromId .idle },
         rep)
      | none => (s, .badDeleteFormat)
    | .quiz =>
      let ans := pyStripLower m.text
      match lookupA s.quizData m.fromId with
      | none => (s, .quizError)
      | some wid =>
        if wid == 0 then (s, .quizError)
        else
          match s.db.words.find? (fun w => w.id == wid) with
          | none => (s, .crash)
          | some w =>
            let correct := pyLower w.english
            let isCorrect := pyLower ans == pyLower correct
            let u := update_word_stats s.db du wid isCorrect
            let rep := if isCorrect then Reply.answerCorrect ans
                       else Reply.answerWrong correct
            ({ s with db := u.1,
                      userStates := setK s.userStates m.fromId .idle,
                      quizData := removeK s.quizData m.fromId },
             rep)
    | .idle => (s, .chooseAction)

/-- The handler-registration order of `_register_handlers`: commands
first, then the exact button labels, then the catch-all. -/
inductive Route where
  | start
  | help
  | quiz
  | add
  | delete
  | list
  | cancel
  | other
deriving DecidableEq, Repr

def route (t : String) : Route :=
  if t == "/start" || t.startsWith "/start " then .start
  else if t == "/help" || t.startsWith "/help " then .help
  else if t == "Викторина 🎮" then .quiz
  else if t == "Добавить слово ➕" then .add
  else if t == "Удалить слово ➖" then .delete
  else if t == "Список слов 📋" then .list
  else if t == "Отмена ❌" then .cancel
  else .other

/-- One full dispatch of an inbound message through the registered
handlers. -/
def dispatch (o : Oracle) (s : BotState) (m : Msg) : BotState × Reply :=
  match route m.text with
  | .start => handle_start s m
  | .help => (s, .helpText)
  | .quiz => handle_quiz o s m
  | .add => handle_add_word s m
  | .delete => handle_delete_word s m
  | .list => handle_words_list s m
  | .cancel => handle_cancel s m
  | .other => handle_messages s m

/-- Well-formedness of a database state as enforced by the schema: every
`user_words` row references an existing word, and word ids are below the
SERIAL counter. -/
def DB.wf (db : DB) : Prop :=
  (∀ uw ∈ db.userWords, ∃ w ∈ db.words, w.id = uw.wordId) ∧
  (∀ w ∈ db.words, w.id < db.nextWordId)

/-- Exact-pair uniqueness of the `words` table (verbatim strings, as
`add_word` compares them). -/
def wordsUniqueExact (db : DB) : Prop :=
  (db.words.map (fun w => (w.russian, w.english))).Nodup

/-- The `correct_count <= attempt_count` invariant over all rows. -/
def entriesOk (db : DB) : Prop :=
  ∀ uw ∈ db.userWords, uw.correctCount ≤ uw.attemptCount

/-- Whether `temp_data[uid]` exists and has the `'russian'` key. -/
def hasPendingNative (s : BotState) (uid : Nat) : Bool :=
  match lookupA s.tempData uid with
  | some t => t.russian.isSome
  | none => false

/-- The implicit invariant behind the unguarded access in the
`ADDING_WORD_ENGLISH` branch: every user whose recorded state is
`ADDING_WORD_ENGLISH` has a pending native term stashed. -/
def tempInv (s : BotState) : Prop :=
  ∀ uid ∈ s.userStates.map Prod.fst,
    stateOf s uid = .addingEnglish → hasPendingNative s uid = true

/-! ### Association-list lemmas (Python-dict semantics) -/

theorem lookupA_nil {α : Type} (u : Nat) :
    lookupA ([] : List (Nat × α)) u = none := rfl

theorem lookupA_cons {α : Type} (p : Nat × α) (t : List (Nat × α)) (u : Nat) :
    lookupA (p :: t) u = if p.1 = u then some p.2 else lookupA t u := by
  by_cases h : p.1 = u
  · rw [if_pos h]
    unfold lookupA
    rw [List.find?_cons_of_pos _ (by simp [h])]
    rfl
  · rw [if_neg h]
    unfold lookupA
    rw [List.find?_cons_of_neg _ (by simp [h])]

theorem setK_cons_eq {α : Type} (p : Nat × α) (t : List (Nat × α)) (k : Nat)
    (v : α) (h : p.1 = k) : setK (p :: t) k v = (k, v) :: t := by
  simp [setK, h]

theorem setK_cons_ne {α : Type} (p : Nat × α) (t : List (Nat × α)) (k : Nat)
    (v : α) (h : ¬p.1 = k) : setK (p :: t) k v = p :: setK t k v := by
  simp [setK, h]

theorem removeK_cons_eq {α : Type} (p : Nat × α) (t : List (Nat × α)) (k : Nat)
    (h : p.1 = k) : removeK (p :: t) k = removeK t k := by
  simp [removeK, List.filter, h]

theorem removeK_cons_ne {α : Type} (p : Nat × α) (t : List (Nat × α)) (k : Nat)
    (h : ¬p.1 = k) : removeK (p :: t) k = p :: removeK t k := by
  have h2 : (p.1 == k) = false := beq_false_of_ne h
  simp [removeK, List.filter, h2]

theorem lookupA_setK {α : Type} (l : List (Nat × α)) (k : Nat) (v : α) (u : Nat) :
    lookupA (setK l k v) u = if u = k then some v else lookupA l u := by
  induction l with
  | nil =>
    show lookupA [(k, v)] u = _
    rw [lookupA_cons]
    by_cases h : u = k
    · rw [if_pos h.symm, if_pos h]
    · rw [if_neg (fun hh => h hh.symm), if_neg h, lookupA_nil]
  | cons p t ih =>
    by_cases hpk : p.1 = k
    · rw [setK_cons_eq p t k v hpk, lookupA_cons]
      by_cases h : u = k
      · rw [if_pos h.symm, if_pos h]
      · rw [if_neg (fun hh => h hh.symm), if_neg h, lookupA_cons,
          if_neg (by rw [hpk]; exact fun hh => h hh.symm)]
    · rw [setK_cons_ne p t k v hpk, lookupA_cons]
      by_cases hpu : p.1 = u
      · have h : ¬u = k := by rw [← hpu]; exact fun hh => hpk hh
        rw [if_pos hpu, if_neg h, lookupA_cons, if_pos hpu]
      · rw [if_neg hpu, ih]
        by_cases h : u = k
        · rw [if_pos h, if_pos h]
        · rw [if_neg h, if_neg h, lookupA_cons, if_neg hpu]

theorem lookupA_removeK {α : Type} (l : List (Nat × α)) (k u : Nat) :
    lookupA (removeK l k) u = if u = k then none else lookupA l u := by
  induction l with
  | nil =>
    show lookupA [] u = _
    by_cases h : u = k
    · rw [if_pos h, lookupA_nil]
    · rw [if_neg h, lookupA_nil]
  | cons p t ih =>
    by_cases hpk : p.1 = k
    · rw [removeK_cons_eq p t k hpk, ih]
      by_cases h : u = k
      · rw [if_pos h, if_pos h]
      · rw [if_neg h, if_neg h, lookupA_cons,
          if_neg (by rw [hpk]; exact fun hh => h hh.symm)]
    · rw [removeK_cons_ne p t k hpk, lookupA_cons]
      by_cases hpu : p.1 = u
      · have h : ¬u = k := by rw [← hpu]; exact hpk
        rw [if_pos hpu, if_neg h, lookupA_cons, if_pos hpu]
      · rw [if_neg hpu, ih]
        by_cases h : u = k
        · rw [if_pos h, if_pos h]
        · rw [if_neg h, if_neg h, lookupA_cons, if_neg hpu]

theorem mem_keys_setK {α : Type} (l : List (Nat × α)) (k : Nat) (v : α) (u : Nat)
    (h : u ∈ (setK l k v).map Prod.fst) : u = k ∨ u ∈ l.map Prod.fst := by
  induction l with
  | nil =>
    refine Or.inl ?_
    simpa [setK] using h
  | cons p t ih =>
    by_cases hpk : p.1 = k
    · rw [setK_cons_eq p t k v hpk] at h
      simp only [List.map_cons, List.mem_cons] at h ⊢
      rcases h with h | h
      · exact Or.inl h
      · exact Or.inr (Or.inr h)
    · rw [setK_cons_ne p t k v hpk] at h
      simp only [List.map_cons, List.mem_cons] at h ⊢
      rcases h with h | h
      · exact Or.inr (Or.inl h)
      · rcases ih h with h1 | h1
        · exact Or.inl h1
        · exact Or.inr (Or.inr h1)

/-! ### C2 — `delete_word`'s return value -/

def dbC2 : DB := ⟨[⟨1, 10, "u"⟩], [], [], 2, 1⟩

/-- C2 counterexample: user 1 of `dbC2` has no `user_words` row for word
5, yet `delete_word` still returns `true` — refuting the claim that it
returns `false` when the user never had that word. -/
theorem C2_counterexample :
    entryOf dbC2 1 5 = none ∧ (delete_word dbC2 1 5).2 = true := by
  exact ⟨rfl, rfl⟩

/-- C2 (amended): `delete_word` deletes every `user_words` row for
`(userId, wordId)` but returns `true` whenever the DELETE statement
executes, regardless of whether any row was actually removed (`false`
only on a storage exception, which is outside the error-free model). -/
theorem delete_word_true_and_removes (db : DB) (uid wid : Nat) :
    (delete_word db uid wid).2 = true ∧
    entryOf (delete_word db uid wid).1 uid wid = none := by
  refine ⟨rfl, ?_⟩
  apply List.find?_eq_none.mpr
  intro x hx
  have hx2 := (List.mem_filter.mp hx).2
  simp only [Bool.not_eq_eq_eq_not, Bool.not_true] at hx2
  simp [hx2]

/-! ### C3 — the cancel command -/

def oId : Oracle := ⟨0, [], [], fun l => l⟩

def sC3 : BotState := ⟨emptyDB, [(7, .quiz)], [], [(7, 3)]⟩

/-- C3 counterexample: user 7 is in the `QUIZ` state with active
question word 3; the cancel command resets the state but leaves the
active quiz question in `quiz_data` — refuting the claim that cancel
discards the active quiz question. -/
theorem C3_counterexample :
    stateOf sC3 7 = .quiz ∧ lookupA sC3.quizData 7 = some 3 ∧
    (dispatch oId sC3 ⟨7, "u", "Отмена ❌"⟩).1.quizData = [(7, 3)] ∧
    stateOf (dispatch oId sC3 ⟨7, "u", "Отмена ❌"⟩).1 7 = .idle := by
  exact ⟨rfl, rfl, rfl, rfl⟩

/-- C3 (amended): for every user in any state, the cancel command
discards the pending native term (`temp_data`) and transitions the user
to `Idle`, but it does **not** discard the active quiz question:
`quiz_data` is left exactly as it was. -/
theorem cancel_resets_state_but_keeps_quiz (o : Oracle) (s : BotState) (m : Msg)
    (hr : route m.text = .cancel) :
    stateOf (dispatch o s m).1 m.fromId = .idle ∧
    lookupA (dispatch o s m).1.tempData m.fromId = none ∧
    (dispatch o s m).1.quizData = s.quizData ∧
    (dispatch o s m).2 = .cancelled := by
  have hd : dispatch o s m = handle_cancel s m := by
    unfold dispatch; rw [hr]
  rw [hd]
  refine ⟨?_, ?_, rfl, rfl⟩
  · unfold handle_cancel stateOf
    simp [lookupA_setK]
  · unfold handle_cancel
    simp [lookupA_removeK]

/-- C3 witness: the amended cancel theorem applied to the concrete
quiz-state `sC3`. -/
theorem C3_witness :
    stateOf (dispatch oId sC3 ⟨7, "u", "Отмена ❌"⟩).1 7 = .idle ∧
    lookupA (dispatch oId sC3 ⟨7, "u", "Отмена ❌"⟩).1.tempData 7 = none ∧
    (dispatch oId sC3 ⟨7, "u", "Отмена ❌"⟩).1.quizData = sC3.quizData ∧
    (dispatch oId sC3 ⟨7, "u", "Отмена ❌"⟩).2 = .cancelled :=
  cancel_resets_state_but_keeps_quiz oId sC3 ⟨7, "u", "Отмена ❌"⟩ rfl

/-! ### C4 — rejection of unauthenticated interactions -/

def sEmpty : BotState := ⟨emptyDB, [], [], []⟩

/-- C4 counterexample: with an empty user table, the "add word" button
is **not** rejected: the handler asks for the native term and moves the
unknown user to `ADDING_WORD_RUSSIAN` — refuting the claim that every
interaction from an unknown identity is rejected with no state
transition. -/
theorem C4_counterexample :
    get_user_id sEmpty.db 1 = none ∧
    (dispatch oId sEmpty ⟨1, "u", "Добавить слово ➕"⟩).2 = .askRussian ∧
    stateOf (dispatch oId sEmpty ⟨1, "u", "Добавить слово ➕"⟩).1 1 =
      .addingRussian := by
  exact ⟨rfl, rfl, rfl⟩

/-- C4 (amended): the quiz, delete-word, list-words and free-text
message handlers do reject an interaction from an unknown identity with
the `/start` instruction, leaving the whole state untouched; but the
add-word (and cancel) button handlers perform no such check — the
add-word button moves even an unknown user into `ADDING_WORD_RUSSIAN`. -/
theorem unauth_rejected_by_most_handlers (o : Oracle) (s : BotState) (m : Msg)
    (h : get_user_id s.db m.fromId = none) :
    (route m.text = .quiz → dispatch o s m = (s, .pleaseStart)) ∧
    (route m.text = .delete → dispatch o s m = (s, .pleaseStart)) ∧
    (route m.text = .list → dispatch o s m = (s, .pleaseStart)) ∧
    (route m.text = .other → dispatch o s m = (s, .pleaseStart)) := by
  refine ⟨fun hr => ?_, fun hr => ?_, fun hr => ?_, fun hr => ?_⟩ <;>
    simp [dispatch, hr, handle_quiz, handle_delete_word, handle_words_list,
      handle_messages, h]

/-- C4 witness: the quiz button from an unknown identity on the empty
state is rejected with the `/start` instruction. -/
theorem C4_witness :
    dispatch oId sEmpty ⟨1, "u", "Викторина 🎮"⟩ = (sEmpty, .pleaseStart) :=
  (unauth_rejected_by_most_handlers oId sEmpty ⟨1, "u", "Викторина 🎮"⟩ rfl).1 rfl

/-! ### C5 — uniqueness of the `words` table -/

/-- A state reached by starting the bot on an empty database (which
seeds the common words, among them `("я", "I")` with an uppercase "I"),
registering a user, and having that user add the pair `("я", "i")` —
which the message handler produces from the input "Я" / "I" after its
lowercasing. -/
def dbC5 : DB :=
  (add_word (register_user (fill_common_words emptyDB) 55 "bob").1 1 "я" "i").1

/-- C5 counterexample: in the reachable state `dbC5` the seeded word
"I" is stored non-lowercased, and two distinct `words` rows collapse to
the same pair after lowercasing — refuting the claim that terms are
case-normalized before comparison and storage and that the store holds
at most one row per case-normalized pair. -/
theorem C5_counterexample :
    (∃ w ∈ dbC5.words, pyLower w.english ≠ w.english) ∧
    ¬(dbC5.words.map (fun w => (pyLower w.russian, pyLower w.english))).Nodup := by
  decide

theorem add_word_words_found (db : DB) (uid : Nat) (r e : String) (w : Word)
    (hfound : db.words.find? (fun w => w.russian == r && w.english == e) = some w) :
    (add_word db uid r e).1.words = db.words := by
  simp only [add_word, hfound]
  split <;> rfl

theorem add_word_words_not_found (db : DB) (uid : Nat) (r e : String)
    (hfound : db.words.find? (fun w => w.russian == r && w.english == e) = none) :
    (add_word db uid r e).1.words = db.words ++ [⟨db.nextWordId, r, e, false⟩] := by
  simp only [add_word, hfound, insertWord]
  split <;> rfl

/-- C5 (amended): the store guarantees at most one `words` row per
exact (verbatim) `(nativeTerm, targetTerm)` pair: seeding an empty
store yields pairwise-distinct pairs, `add_word` preserves the
uniqueness, and no other store operation touches the `words` table.
Terms are not case-normalized by the store itself (callers lowercase
their input, but the seed list stores an uppercase "I"), so uniqueness
up to lowercasing does not hold. -/
theorem words_unique_exact_preserved :
    wordsUniqueExact (fill_common_words emptyDB) ∧
    (∀ db uid r e, wordsUniqueExact db →
      wordsUniqueExact (add_word db uid r e).1) ∧
    (∀ db tg n, (register_user db tg n).1.words = db.words) ∧
    (∀ db uid wid, (delete_word db uid wid).1.words = db.words) ∧
    (∀ db uid wid b, (update_word_stats db uid wid b).1.words = db.words) := by
  refine ⟨by unfold wordsUniqueExact; decide, ?_, fun db tg n => ?_,
    fun db uid wid => rfl, fun db uid wid b => rfl⟩
  · intro db uid r e hu
    cases hfound : db.words.find? (fun w => w.russian == r && w.english == e) with
    | some w =>
      unfold wordsUniqueExact at hu ⊢
      rw [add_word_words_found db uid r e w hfound]
      exact hu
    | none =>
      have hnot : ∀ w ∈ db.words, ¬(w.russian = r ∧ w.english = e) := by
        intro w hw hc
        have h2 := List.find?_eq_none.mp hfound w hw
        simp [hc.1, hc.2] at h2
      unfold wordsUniqueExact at hu ⊢
      rw [add_word_words_not_found db uid r e hfound, List.map_append,
        List.nodup_append]
      refine ⟨hu, List.nodup_singleton _, ?_⟩
      simp only [List.map_cons, List.map_nil]
      rw [List.disjoint_singleton]
      intro hmem
      rcases List.mem_map.mp hmem with ⟨w, hw, hwx⟩
      exact hnot w hw ⟨congrArg Prod.fst hwx, congrArg Prod.snd hwx⟩
  · unfold register_user
    cases h : db.users.find? (fun u => u.tgId == tg) <;> simp

/-- C5 witness: the amended uniqueness theorem applied to a freshly
seeded store and one `add_word` call. -/
theorem C5_witness :
    wordsUniqueExact (add_word (fill_common_words emptyDB) 1 "кот" "cat").1 :=
  words_unique_exact_preserved.2.1 (fill_common_words emptyDB) 1 "кот" "cat"
    words_unique_exact_preserved.1

/-! ### C6 — idempotence of `add_word` -/

theorem count_filter_append_one (l : List UserWord) (x : UserWord) (uid : Nat)
    (hx : x.userId = uid) :
    ((l ++ [x]).filter (fun uw => uw.userId == uid)).length =
      (l.filter (fun uw => uw.userId == uid)).length + 1 := by
  rw [List.filter_append]
  simp [hx]

theorem any_of_entryOf_none (db : DB) (uid wid : Nat)
    (h : entryOf db uid wid = none) :
    db.userWords.any (fun uw => uw.userId == uid && uw.wordId == wid) = false := by
  rw [List.any_eq_false]
  intro x hx
  simpa using List.find?_eq_none.mp h x hx

theorem add_word_eq_found_old (db : DB) (uid : Nat) (r e : String) (w : Word)
    (hfound : db.words.find? (fun w => w.russian == r && w.english == e) = some w)
    (hany : db.userWords.any
      (fun uw => uw.userId == uid && uw.wordId == w.id) = true) :
    add_word db uid r e = (db, true, userWordCount db uid) := by
  simp only [add_word, hfound, hany]
  simp

theorem add_word_eq_found_new (db : DB) (uid : Nat) (r e : String) (w : Word)
    (hfound : db.words.find? (fun w => w.russian == r && w.english == e) = some w)
    (hany : db.userWords.any
      (fun uw => uw.userId == uid && uw.wordId == w.id) = false) :
    add_word db uid r e =
      ({ db with userWords := db.userWords ++ [⟨uid, w.id, 0, 0⟩] }, true,
        userWordCount
          { db with userWords := db.userWords ++ [⟨uid, w.id, 0, 0⟩] } uid) := by
  simp only [add_word, hfound, hany]
  rfl

theorem add_word_eq_not_found (db : DB) (uid : Nat) (r e : String)
    (hfound : db.words.find? (fun w => w.russian == r && w.english == e) = none)
    (hany : db.userWords.any
      (fun uw => uw.userId == uid && uw.wordId == db.nextWordId) = false) :
    add_word db uid r e =
      ({ db with words := db.words ++ [⟨db.nextWordId, r, e, false⟩],
                 nextWordId := db.nextWordId + 1,
                 userWords := db.userWords ++ [⟨uid, db.nextWordId, 0, 0⟩] }, true,
        userWordCount
          { db with words := db.words ++ [⟨db.nextWordId, r, e, false⟩],
                    nextWordId := db.nextWordId + 1,
                    userWords := db.userWords ++ [⟨uid, db.nextWordId, 0, 0⟩] }
          uid) := by
  simp only [add_word, hfound, insertWord, hany]
  rfl

/-- C6: calling `add_word` twice with the same user and the same pair,
starting from a well-formed store in which the user does not yet own
that pair, increases the user's vocabulary count exactly once; the
second call leaves the associations untouched and returns the unchanged
total. -/
theorem add_word_idempotent (db : DB) (uid : Nat) (r e : String)
    (hwf : db.wf)
    (hnew : ∀ w ∈ db.words, w.russian = r → w.english = e →
      entryOf db uid w.id = none) :
    userWordCount (add_word db uid r e).1 uid = userWordCount db uid + 1 ∧
    (add_word db uid r e).2.2 = userWordCount (add_word db uid r e).1 uid ∧
    (add_word (add_word db uid r e).1 uid r e).1.userWords =
      (add_word db uid r e).1.userWords ∧
    (add_word (add_word db uid r e).1 uid r e).2.2 =
      (add_word db uid r e).2.2 := by
  cases hfound : db.words.find? (fun w => w.russian == r && w.english == e) with
  | some w =>
    have hp := List.find?_some hfound
    simp only [Bool.and_eq_true, beq_iff_eq] at hp
    have hmem := List.mem_of_find?_eq_some hfound
    have hany : db.userWords.any
        (fun uw => uw.userId == uid && uw.wordId == w.id) = false :=
      any_of_entryOf_none db uid w.id (hnew w hmem hp.1 hp.2)
    have h1 := add_word_eq_found_new db uid r e w hfound hany
    have hany2 : ({ db with userWords := db.userWords ++ [⟨uid, w.id, 0, 0⟩] }
        : DB).userWords.any
        (fun uw => uw.userId == uid && uw.wordId == w.id) = true := by
      simp [List.any_append]
    have h2 := add_word_eq_found_old
      { db with userWords := db.userWords ++ [⟨uid, w.id, 0, 0⟩] } uid r e w
      hfound hany2
    refine ⟨?_, rfl, ?_, ?_⟩
    · rw [h1]
      exact count_filter_append_one db.userWords ⟨uid, w.id, 0, 0⟩ uid rfl
    all_goals simp only [h1, h2]
  | none =>
    obtain ⟨hfk, hlt⟩ := hwf
    have hany : db.userWords.any
        (fun uw => uw.userId == uid && uw.wordId == db.nextWordId) = false := by
      rw [List.any_eq_false]
      intro uw huw
      rcases hfk uw huw with ⟨w, hw, hwid⟩
      have hl := hlt w hw
      have hne : ¬uw.wordId = db.nextWordId := by omega
      simp [hne]
    have h1 := add_word_eq_not_found db uid r e hfound hany
    have hfound2 : ({ db with
        words := db.words ++ [⟨db.nextWordId, r, e, false⟩],
        nextWordId := db.nextWordId + 1,
        userWords := db.userWords ++ [⟨uid, db.nextWordId, 0, 0⟩] }
          : DB).words.find? (fun w => w.russian == r && w.english == e) =
        some (⟨db.nextWordId, r, e, false⟩ : Word) := by
      show (db.words ++ [(⟨db.nextWordId, r, e, false⟩ : Word)]).find?
          (fun w => w.russian == r && w.english == e) =
        some (⟨db.nextWordId, r, e, false⟩ : Word)
      rw [List.find?_append, hfound]
      simp
    have hany2 : ({ db with
        words := db.words ++ [⟨db.nextWordId, r, e, false⟩],
        nextWordId := db.nextWordId + 1,
        userWords := db.userWords ++ [⟨uid, db.nextWordId, 0, 0⟩] }
          : DB).userWords.any
        (fun uw => uw.userId == uid && uw.wordId == db.nextWordId) = true := by
      simp [List.any_append]
    have h2 := add_word_eq_found_old
      { db with words := db.words ++ [⟨db.nextWordId, r, e, false⟩],
                nextWordId := db.nextWordId + 1,
                userWords := db.userWords ++ [⟨uid, db.nextWordId, 0, 0⟩] }
      uid r e ⟨db.nextWordId, r, e, false⟩ hfound2 hany2
    refine ⟨?_, rfl, ?_, ?_⟩
    · rw [h1]
      exact count_filter_append_one db.userWords ⟨uid, db.nextWordId, 0, 0⟩ uid rfl
    all_goals simp only [h1, h2]

/-- C6 witness: a concrete well-formed store (one registered user, one
word not yet owned by them) on which the idempotence theorem applies. -/
def dbC6 : DB := ⟨[⟨1, 10, "u"⟩], [⟨1, "дом", "house", false⟩], [], 2, 2⟩

theorem C6_witness :
    userWordCount (add_word dbC6 1 "дом" "house").1 1 =
      userWordCount dbC6 1 + 1 :=
  (add_word_idempotent dbC6 1 "дом" "house"
    (by unfold DB.wf; decide) (by decide)).1

/-! ### C8 — `register_user` idempotence and common-word enrolment -/

/-- C8: `register_user` looks the user up by external identity; when
absent it creates the user and, in the same operation, enrolls them in
every existing common word; a second call with the same identity finds
the user, changes nothing, and returns the same internal id. -/
theorem register_user_spec (db : DB) (tg : Nat) (n n2 : String) :
    (register_user (register_user db tg n).1 tg n2 = register_user db tg n) ∧
    (db.users.find? (fun u => u.tgId == tg) = none →
      (register_user db tg n).1.users =
        db.users ++ [⟨db.nextUserId, tg, n⟩] ∧
      (register_user db tg n).1.userWords =
        db.userWords ++
          (db.words.filter (·.isCommon)).map
            (fun w => ⟨db.nextUserId, w.id, 0, 0⟩)) := by
  constructor
  · cases h : db.users.find? (fun u => u.tgId == tg) with
    | some u =>
      have h1 : register_user db tg n = (db, u.id) := by
        simp only [register_user, h]
      have h2 : register_user db tg n2 = (db, u.id) := by
        simp only [register_user, h]
      rw [h1]
      show register_user db tg n2 = (db, u.id)
      exact h2
    | none =>
      have h1 : register_user db tg n =
          ({ db with users := db.users ++ [⟨db.nextUserId, tg, n⟩],
                     nextUserId := db.nextUserId + 1,
                     userWords := db.userWords ++
                       (db.words.filter (·.isCommon)).map
                         (fun w => ⟨db.nextUserId, w.id, 0, 0⟩) },
           db.nextUserId) := by
        simp only [register_user, h]
      have hfind2 : (db.users ++ [(⟨db.nextUserId, tg, n⟩ : UserRow)]).find?
          (fun u => u.tgId == tg) = some (⟨db.nextUserId, tg, n⟩ : UserRow) := by
        rw [List.find?_append, h]
        simp
      have h2 : register_user
          ({ db with users := db.users ++ [⟨db.nextUserId, tg, n⟩],
                     nextUserId := db.nextUserId + 1,
                     userWords := db.userWords ++
                       (db.words.filter (·.isCommon)).map
                         (fun w => ⟨db.nextUserId, w.id, 0, 0⟩) } : DB) tg n2 =
          ({ db with users := db.users ++ [⟨db.nextUserId, tg, n⟩],
                     nextUserId := db.nextUserId + 1,
                     userWords := db.userWords ++
                       (db.words.filter (·.isCommon)).map
                         (fun w => ⟨db.nextUserId, w.id, 0, 0⟩) },
           db.nextUserId) := by
        simp only [register_user, hfind2]
      rw [h1]
      show register_user
          ({ db with users := db.users ++ [⟨db.nextUserId, tg, n⟩],
                     nextUserId := db.nextUserId + 1,
                     userWords := db.userWords ++
                       (db.words.filter (·.isCommon)).map
                         (fun w => ⟨db.nextUserId, w.id, 0, 0⟩) } : DB) tg n2 = _
      exact h2
  · intro h
    constructor
    · simp only [register_user, h]
    · simp only [register_user, h]

/-- C8 witness: registering a fresh user on the just-seeded store
enrolls them in exactly the common words. -/
theorem C8_witness :
    (register_user (fill_common_words emptyDB) 77 "alice").1.userWords =
      (fill_common_words emptyDB).userWords ++
        ((fill_common_words emptyDB).words.filter (·.isCommon)).map
          (fun w => ⟨(fill_common_words emptyDB).nextUserId, w.id, 0, 0⟩) :=
  ((register_user_spec (fill_common_words emptyDB) 77 "alice" "alice").2 rfl).2

/-! ### C7 — quiz answer statistics -/

theorem updEntry_pos (uid wid : Nat) (b : Bool) (uw : UserWord)
    (h : (uw.userId == uid && uw.wordId == wid) = true) :
    updEntry uid wid b uw =
      { uw with attemptCount := uw.attemptCount + 1,
                correctCount := uw.correctCount + (if b then 1 else 0) } :=
  if_pos h

theorem updEntry_neg (uid wid : Nat) (b : Bool) (uw : UserWord)
    (h : ¬(uw.userId == uid && uw.wordId == wid) = true) :
    updEntry uid wid b uw = uw :=
  if_neg h

theorem updEntry_pred (uid wid : Nat) (b : Bool) (uw : UserWord) :
    ((updEntry uid wid b uw).userId == uid &&
      (updEntry uid wid b uw).wordId == wid) =
    (uw.userId == uid && uw.wordId == wid) := by
  unfold updEntry
  split <;> rfl

theorem find?_update_list (l : List UserWord) (uid wid : Nat) (b : Bool) :
    (l.map (updEntry uid wid b)).find?
      (fun uw => uw.userId == uid && uw.wordId == wid) =
    (l.find? (fun uw => uw.userId == uid && uw.wordId == wid)).map (fun e =>
      { e with attemptCount := e.attemptCount + 1,
               correctCount := e.correctCount + (if b then 1 else 0) }) := by
  induction l with
  | nil => rfl
  | cons x t ih =>
    by_cases hx : (x.userId == uid && x.wordId == wid) = true
    · rw [List.map_cons,
        @List.find?_cons_of_pos UserWord
          (fun uw => uw.userId == uid && uw.wordId == wid)
          (updEntry uid wid b x) (List.map (updEntry uid wid b) t)
          (by show ((updEntry uid wid b x).userId == uid &&
                (updEntry uid wid b x).wordId == wid) = true
              rw [updEntry_pred]; exact hx),
        @List.find?_cons_of_pos UserWord
          (fun uw => uw.userId == uid && uw.wordId == wid) x t hx,
        updEntry_pos uid wid b x hx]
      rfl
    · rw [List.map_cons,
        @List.find?_cons_of_neg UserWord
          (fun uw => uw.userId == uid && uw.wordId == wid)
          (updEntry uid wid b x) (List.map (updEntry uid wid b) t)
          (by show ¬((updEntry uid wid b x).userId == uid &&
                (updEntry uid wid b x).wordId == wid) = true
              rw [updEntry_pred]; exact hx),
        @List.find?_cons_of_neg UserWord
          (fun uw => uw.userId == uid && uw.wordId == wid) x t hx]
      exact ih

theorem entryOf_update_word_stats (db : DB) (uid wid : Nat) (b : Bool) :
    entryOf (update_word_stats db uid wid b).1 uid wid =
      (entryOf db uid wid).map (fun e =>
        { e with attemptCount := e.attemptCount + 1,
                 correctCount := e.correctCount + (if b then 1 else 0) }) :=
  find?_update_list db.userWords uid wid b

theorem entriesOk_update (db : DB) (uid wid : Nat) (b : Bool)
    (h : entriesOk db) : entriesOk (update_word_stats db uid wid b).1 := by
  intro uw huw
  rcases List.mem_map.mp huw with ⟨x, hx, hfx⟩
  have hx2 := h x hx
  subst hfx
  by_cases hpred : (x.userId == uid && x.wordId == wid) = true
  · rw [updEntry_pos uid wid b x hpred]
    show x.correctCount + (if b then 1 else 0) ≤ x.attemptCount + 1
    split <;> omega
  · rw [updEntry_neg uid wid b x hpred]
    exact hx2

/-- Equation for the `QUIZ` branch of `_handle_messages`: with an
authenticated user in `QUIZ` state, an active question, and an existing
word row for it, the handler updates the stats with the normalized
comparison, replies with the scored outcome, resets the state to `IDLE`
and drops the active question. -/
theorem handle_messages_quiz_eq (s : BotState) (m : Msg) (du wid : Nat)
    (w : Word)
    (hdu : get_user_id s.db m.fromId = some du)
    (hst : stateOf s m.fromId = .quiz)
    (hq : lookupA s.quizData m.fromId = some wid)
    (hw0 : (wid == 0) = false)
    (hw : s.db.words.find? (fun x => x.id == wid) = some w) :
    handle_messages s m =
      ({ s with
          db := (update_word_stats s.db du wid
            (pyLower (pyStripLower m.text) == pyLower (pyLower w.english))).1,
          userStates := setK s.userStates m.fromId .idle,
          quizData := removeK s.quizData m.fromId },
       if pyLower (pyStripLower m.text) == pyLower (pyLower w.english) then
         Reply.answerCorrect (pyStripLower m.text)
       else Reply.answerWrong (pyLower w.english)) := by
  simp only [handle_messages, hdu, hst, hq, hw0, hw, Bool.false_eq_true,
    if_false]

/-- C7: every answer submitted on an active question whose vocabulary
entry exists increments that entry's `attemptCount` exactly once,
increments `correctCount` exactly when the normalized comparison of the
answer with the word's target term succeeds, and preserves the
`correctCount <= attemptCount` invariant over all rows. -/
theorem quiz_answer_stats (s : BotState) (m : Msg) (du wid : Nat) (w : Word)
    (e0 : UserWord)
    (hdu : get_user_id s.db m.fromId = some du)
    (hst : stateOf s m.fromId = .quiz)
    (hq : lookupA s.quizData m.fromId = some wid)
    (hw0 : (wid == 0) = false)
    (hw : s.db.words.find? (fun x => x.id == wid) = some w)
    (he : entryOf s.db du wid = some e0)
    (hok : entriesOk s.db) :
    entryOf (handle_messages s m).1.db du wid =
      some { e0 with
        attemptCount := e0.attemptCount + 1,
        correctCount := e0.correctCount +
          (if pyLower (pyStripLower m.text) == pyLower (pyLower w.english)
            then 1 else 0) } ∧
    entriesOk (handle_messages s m).1.db := by
  rw [handle_messages_quiz_eq s m du wid w hdu hst hq hw0 hw]
  constructor
  · show entryOf (update_word_stats s.db du wid
        (pyLower (pyStripLower m.text) == pyLower (pyLower w.english))).1
        du wid = _
    rw [entryOf_update_word_stats, he, Option.map_some']
  · show entriesOk (update_word_stats s.db du wid
        (pyLower (pyStripLower m.text) == pyLower (pyLower w.english))).1
    exact entriesOk_update _ _ _ _ hok

/-- C7 witness: user 10 (internal id 1) answers their quiz question on
word 1 ("кот" → "cat") with "cat": the entry's counters go from (0, 0)
to correct 1, attempts 1. -/
def sC7 : BotState :=
  ⟨⟨[⟨1, 10, "u"⟩], [⟨1, "кот", "cat", false⟩], [⟨1, 1, 0, 0⟩], 2, 2⟩,
   [(10, .quiz)], [], [(10, 1)]⟩

theorem C7_witness :
    entryOf (handle_messages sC7 ⟨10, "u", "cat"⟩).1.db 1 1 =
      some ⟨1, 1, 1, 1⟩ :=
  (quiz_answer_stats sC7 ⟨10, "u", "cat"⟩ 1 1 ⟨1, "кот", "cat", false⟩
    ⟨1, 1, 0, 0⟩ rfl rfl rfl rfl rfl rfl (by unfold entriesOk; decide)).1

/-! ### C10 — answering when the vocabulary entry has vanished -/

theorem map_updEntry_id (l : List UserWord) (uid wid : Nat) (b : Bool)
    (h : l.find? (fun uw => uw.userId == uid && uw.wordId == wid) = none) :
    l.map (updEntry uid wid b) = l := by
  have hall := List.find?_eq_none.mp h
  calc l.map (updEntry uid wid b)
      = l.map id :=
        List.map_congr_left (fun a ha => updEntry_neg uid wid b a (hall a ha))
    _ = l := List.map_id l

theorem update_word_stats_no_entry (db : DB) (uid wid : Nat) (b : Bool)
    (h : entryOf db uid wid = none) :
    (update_word_stats db uid wid b).1 = db := by
  show ({ db with userWords := db.userWords.map (updEntry uid wid b) } : DB) = db
  rw [map_updEntry_id db.userWords uid wid b h]

/-- C10: if the user's vocabulary entry for the active question's word
no longer exists when the answer is submitted, the `UPDATE` matches
zero rows yet `update_word_stats` still reports success: the answer is
scored and the scored reply (with the canonical correct term on a wrong
answer) is sent, the database is completely unchanged (no counter
incremented anywhere), the state returns to `IDLE`, the active question
is dropped, and no error is surfaced. -/
theorem stale_entry_scored (s : BotState) (m : Msg) (du wid : Nat) (w : Word)
    (hdu : get_user_id s.db m.fromId = some du)
    (hst : stateOf s m.fromId = .quiz)
    (hq : lookupA s.quizData m.fromId = some wid)
    (hw0 : (wid == 0) = false)
    (hw : s.db.words.find? (fun x => x.id == wid) = some w)
    (he : entryOf s.db du wid = none) :
    (handle_messages s m).1.db = s.db ∧
    (update_word_stats s.db du wid
      (pyLower (pyStripLower m.text) == pyLower (pyLower w.english))).2 = true ∧
    (handle_messages s m).2 =
      (if pyLower (pyStripLower m.text) == pyLower (pyLower w.english) then
        Reply.answerCorrect (pyStripLower m.text)
      else Reply.answerWrong (pyLower w.english)) ∧
    stateOf (handle_messages s m).1 m.fromId = .idle ∧
    lookupA (handle_messages s m).1.quizData m.fromId = none := by
  rw [handle_messages_quiz_eq s m du wid w hdu hst hq hw0 hw]
  refine ⟨?_, rfl, rfl, ?_, ?_⟩
  · show (update_word_stats s.db du wid
        (pyLower (pyStripLower m.text) == pyLower (pyLower w.english))).1 = s.db
    exact update_word_stats_no_entry _ _ _ _ he
  · unfold stateOf
    simp [lookupA_setK]
  · simp [lookupA_removeK]

/-- C10 witness: like `sC7` but the `user_words` row is gone while the
question on word 1 is still active. -/
def sC10 : BotState :=
  ⟨⟨[⟨1, 10, "u"⟩], [⟨1, "кот", "cat", false⟩], [], 2, 2⟩,
   [(10, .quiz)], [], [(10, 1)]⟩

theorem C10_witness :
    (handle_messages sC10 ⟨10, "u", "cat"⟩).1.db = sC10.db :=
  (stale_entry_scored sC10 ⟨10, "u", "cat"⟩ 1 1 ⟨1, "кот", "cat", false⟩
    rfl rfl rfl rfl rfl rfl).1

/-! ### C9 — the pending-native-term invariant -/

theorem tempInv_set_state (s : BotState) (db2 : DB) (qd : List (Nat × Nat))
    (k : Nat) (v : UState) (hv : ¬v = UState.addingEnglish) (h : tempInv s) :
    tempInv ⟨db2, setK s.userStates k v, s.tempData, qd⟩ := by
  intro uid hmem hstate
  have hst : stateOf ⟨db2, setK s.userStates k v, s.tempData, qd⟩ uid =
      if uid = k then v else stateOf s uid := by
    unfold stateOf
    rw [show (⟨db2, setK s.userStates k v, s.tempData, qd⟩ :
      BotState).userStates = setK s.userStates k v from rfl, lookupA_setK]
    by_cases huk : uid = k <;> simp [huk]
  by_cases huk : uid = k
  · rw [hst, if_pos huk] at hstate
    exact absurd hstate hv
  · rw [hst, if_neg huk] at hstate
    rcases mem_keys_setK s.userStates k v uid hmem with h1 | h1
    · exact absurd h1 huk
    · exact h uid h1 hstate

theorem tempInv_discard (s : BotState) (db2 : DB) (qd : List (Nat × Nat))
    (k : Nat) (h : tempInv s) :
    tempInv ⟨db2, setK s.userStates k .idle, removeK s.tempData k, qd⟩ := by
  intro uid hmem hstate
  have hst : stateOf ⟨db2, setK s.userStates k .idle, removeK s.tempData k, qd⟩
      uid = if uid = k then .idle else stateOf s uid := by
    unfold stateOf
    rw [show (⟨db2, setK s.userStates k .idle, removeK s.tempData k, qd⟩ :
      BotState).userStates = setK s.userStates k UState.idle from rfl,
      lookupA_setK]
    by_cases huk : uid = k <;> simp [huk]
  by_cases huk : uid = k
  · rw [hst, if_pos huk] at hstate
    exact absurd hstate (by decide)
  · rw [hst, if_neg huk] at hstate
    rcases mem_keys_setK s.userStates k .idle uid hmem with h1 | h1
    · exact absurd h1 huk
    · have hp := h uid h1 hstate
      unfold hasPendingNative at hp ⊢
      rw [show (⟨db2, setK s.userStates k .idle, removeK s.tempData k, qd⟩ :
        BotState).tempData = removeK s.tempData k from rfl,
        lookupA_removeK, if_neg huk]
      exact hp

theorem tempInv_stash (s : BotState) (k : Nat) (rw0 : String) (h : tempInv s) :
    tempInv ⟨s.db, setK s.userStates k .addingEnglish,
             setK s.tempData k ⟨some rw0⟩, s.quizData⟩ := by
  intro uid hmem hstate
  by_cases huk : uid = k
  · unfold hasPendingNative
    rw [show (⟨s.db, setK s.userStates k .addingEnglish,
        setK s.tempData k ⟨some rw0⟩, s.quizData⟩ : BotState).tempData =
        setK s.tempData k ⟨some rw0⟩ from rfl,
      lookupA_setK, if_pos huk]
    rfl
  · have hst : stateOf ⟨s.db, setK s.userStates k .addingEnglish,
        setK s.tempData k ⟨some rw0⟩, s.quizData⟩ uid = stateOf s uid := by
      unfold stateOf
      rw [show (⟨s.db, setK s.userStates k .addingEnglish,
          setK s.tempData k ⟨some rw0⟩, s.quizData⟩ : BotState).userStates =
          setK s.userStates k UState.addingEnglish from rfl,
        lookupA_setK, if_neg huk]
    rw [hst] at hstate
    rcases mem_keys_setK s.userStates k .addingEnglish uid hmem with h1 | h1
    · exact absurd h1 huk
    · have hp := h uid h1 hstate
      unfold hasPendingNative at hp ⊢
      rw [show (⟨s.db, setK s.userStates k .addingEnglish,
          setK s.tempData k ⟨some rw0⟩, s.quizData⟩ : BotState).tempData =
          setK s.tempData k ⟨some rw0⟩ from rfl,
        lookupA_setK, if_neg huk]
      exact hp

theorem tempInv_handle_start (s : BotState) (m : Msg) (h : tempInv s) :
    tempInv (handle_start s m).1 :=
  tempInv_set_state s (register_user s.db m.fromId m.name).1 s.quizData
    m.fromId .idle (by decide) h

theorem tempInv_handle_quiz (o : Oracle) (s : BotState) (m : Msg)
    (h : tempInv s) : tempInv (handle_quiz o s m).1 := by
  cases hdu : get_user_id s.db m.fromId with
  | none =>
    have he : handle_quiz o s m = (s, .pleaseStart) := by
      simp [handle_quiz, hdu]
    rw [he]
    exact h
  | some du =>
    cases hrand : get_random_word s.db du o.idx with
    | none =>
      have he : handle_quiz o s m = (s, .noWordsForQuiz) := by
        simp [handle_quiz, hdu, hrand]
      rw [he]
      exact h
    | some t3 =>
      obtain ⟨wid, rw0, ew0⟩ := t3
      have he : (handle_quiz o s m).1 =
          ⟨s.db, setK s.userStates m.fromId .quiz, s.tempData,
           setK s.quizData m.fromId wid⟩ := by
        simp [handle_quiz, hdu, hrand]
      rw [he]
      exact tempInv_set_state s s.db (setK s.quizData m.fromId wid)
        m.fromId .quiz (by decide) h

theorem tempInv_handle_add_word (s : BotState) (m : Msg) (h : tempInv s) :
    tempInv (handle_add_word s m).1 :=
  tempInv_set_state s s.db s.quizData m.fromId .addingRussian (by decide) h

theorem tempInv_handle_delete_word (s : BotState) (m : Msg) (h : tempInv s) :
    tempInv (handle_delete_word s m).1 := by
  cases hdu : get_user_id s.db m.fromId with
  | none =>
    have he : handle_delete_word s m = (s, .pleaseStart) := by
      simp [handle_delete_word, hdu]
    rw [he]
    exact h
  | some du =>
    by_cases hws : (get_user_words s.db du).isEmpty = true
    · have he : handle_delete_word s m = (s, .noWordsToDelete) := by
        simp [handle_delete_word, hdu, hws]
      rw [he]
      exact h
    · have he : (handle_delete_word s m).1 =
          ⟨s.db, setK s.userStates m.fromId .deleting, s.tempData,
           s.quizData⟩ := by
        simp [handle_delete_word, hdu, hws]
      rw [he]
      exact tempInv_set_state s s.db s.quizData m.fromId .deleting
        (by decide) h

theorem handle_words_list_state (s : BotState) (m : Msg) :
    (handle_words_list s m).1 = s := by
  cases hdu : get_user_id s.db m.fromId with
  | none => simp [handle_words_list, hdu]
  | some du =>
    by_cases hws : (get_user_words s.db du).isEmpty = true <;>
      simp [handle_words_list, hdu, hws]

theorem tempInv_handle_words_list (s : BotState) (m : Msg) (h : tempInv s) :
    tempInv (handle_words_list s m).1 := by
  rw [handle_words_list_state]
  exact h

theorem tempInv_handle_cancel (s : BotState) (m : Msg) (h : tempInv s) :
    tempInv (handle_cancel s m).1 :=
  tempInv_discard s s.db s.quizData m.fromId h

theorem tempInv_handle_messages (s : BotState) (m : Msg) (h : tempInv s) :
    tempInv (handle_messages s m).1 := by
  cases hdu : get_user_id s.db m.fromId with
  | none =>
    have he : handle_messages s m = (s, .pleaseStart) := by
      simp [handle_messages, hdu]
    rw [he]
    exact h
  | some du =>
    cases hst : stateOf s m.fromId with
    | idle =>
      have he : handle_messages s m = (s, .chooseAction) := by
        simp [handle_messages, hdu, hst]
      rw [he]
      exact h
    | addingRussian =>
      have he : (handle_messages s m).1 =
          ⟨s.db, setK s.userStates m.fromId .addingEnglish,
           setK s.tempData m.fromId ⟨some (pyStripLower m.text)⟩,
           s.quizData⟩ := by
        simp [handle_messages, hdu, hst]
      rw [he]
      exact tempInv_stash s m.fromId (pyStripLower m.text) h
    | addingEnglish =>
      cases hl : lookupA s.tempData m.fromId with
      | none =>
        have he : handle_messages s m = (s, .crash) := by
          simp [handle_messages, hdu, hst, hl]
        rw [he]
        exact h
      | some t =>
        cases hr : t.russian with
        | none =>
          have he : handle_messages s m = (s, .crash) := by
            simp [handle_messages, hdu, hst, hl, hr]
          rw [he]
          exact h
        | some rw0 =>
          have he : (handle_messages s m).1 =
              ⟨(add_word s.db du rw0 (pyStripLower m.text)).1,
               setK s.userStates m.fromId .idle,
               removeK s.tempData m.fromId, s.quizData⟩ := by
            simp [handle_messages, hdu, hst, hl, hr]
          rw [he]
          exact tempInv_discard s (add_word s.db du rw0 (pyStripLower m.text)).1
            s.quizData m.fromId h
    | deleting =>
      cases hp : parseDeleteId m.text with
      | some wid =>
        have he : (handle_messages s m).1 =
            ⟨(delete_word s.db du wid).1,
             setK s.userStates m.fromId .idle, s.tempData, s.quizData⟩ := by
          simp [handle_messages, hdu, hst, hp]
        rw [he]
        exact tempInv_set_state s (delete_word s.db du wid).1 s.quizData
          m.fromId .idle (by decide) h
      | none =>
        have he : handle_messages s m = (s, .badDeleteFormat) := by
          simp [handle_messages, hdu, hst, hp]
        rw [he]
        exact h
    | quiz =>
      cases hq : lookupA s.quizData m.fromId with
      | none =>
        have he : handle_messages s m = (s, .quizError) := by
          simp [handle_messages, hdu, hst, hq]
        rw [he]
        exact h
      | some wid =>
        by_cases hw00 : (wid == 0) = true
        · have he : handle_messages s m = (s, .quizError) := by
            simp [handle_messages, hdu, hst, hq, hw00]
          rw [he]
          exact h
        · have hw0 : (wid == 0) = false := by
            cases hb : (wid == 0) with
            | true => exact absurd hb hw00
            | false => rfl
          cases hw : s.db.words.find? (fun x => x.id == wid) with
          | none =>
            have he : handle_messages s m = (s, .crash) := by
              simp [handle_messages, hdu, hst, hq, hw0, hw]
            rw [he]
            exact h
          | some w =>
            rw [handle_messages_quiz_eq s m du wid w hdu hst hq hw0 hw]
            exact tempInv_set_state s
              (update_word_stats s.db du wid
                (pyLower (pyStripLower m.text) == pyLower (pyLower w.english))).1
              (removeK s.quizData m.fromId) m.fromId .idle (by decide) h

/-- C9: if every user whose conversation state is `ADDING_WORD_ENGLISH`
has a stashed pending native term, this is still true after dispatching
any message — so the unguarded `temp_data[user_id]['russian']` access
in the `ADDING_WORD_ENGLISH` branch can never fail on a reachable
state. -/
theorem tempInv_preserved (o : Oracle) (s : BotState) (m : Msg)
    (h : tempInv s) : tempInv (dispatch o s m).1 := by
  unfold dispatch
  cases route m.text with
  | start => exact tempInv_handle_start s m h
  | help => exact h
  | quiz => exact tempInv_handle_quiz o s m h
  | add => exact tempInv_handle_add_word s m h
  | delete => exact tempInv_handle_delete_word s m h
  | list => exact tempInv_handle_words_list s m h
  | cancel => exact tempInv_handle_cancel s m h
  | other => exact tempInv_handle_messages s m h

/-- C9 witness: the invariant holds on the empty state and is preserved
by dispatching a message that stashes a native term. -/
theorem C9_witness :
    tempInv (dispatch oId sEmpty ⟨1, "u", "стол"⟩).1 :=
  tempInv_preserved oId sEmpty ⟨1, "u", "стол"⟩
    (by unfold tempInv; decide)

/-! ### C1 — quiz option sets -/

/-- A reachable store in which user 1 owns two distinct words that
share the target text "cat". -/
def dbC1 : DB :=
  ⟨[⟨1, 10, "u"⟩],
   [⟨1, "кот", "cat", false⟩, ⟨2, "кошка", "cat", false⟩],
   [⟨1, 1, 0, 0⟩, ⟨1, 2, 0, 0⟩], 2, 3⟩

/-- C1 counterexample: with correct word 1 ("кот" → "cat"), the step-1
distractor query legitimately returns the user's word 2 ("кошка" →
"cat"), since it excludes only the correct word's id and not its text;
the top-up pool is empty and the identity shuffle yields the option set
["cat", "cat"] — the correct term appears twice, refuting both
"exactly once" and "no duplicate option texts". -/
theorem C1_counterexample :
    step1Valid dbC1 1 1 [⟨2, "кошка", "cat", false⟩] ∧
    step2Valid dbC1 1 "cat" [] ∧
    shuffleValid (fun l => l) ∧
    (get_options dbC1 1 1 [⟨2, "кошка", "cat", false⟩] [] (fun l => l)).1 =
      ["cat", "cat"] ∧
    (get_options dbC1 1 1 [⟨2, "кошка", "cat", false⟩] [] (fun l => l)).1.count
      "cat" ≠ 1 := by
  refine ⟨?_, ?_, ?_, rfl, by decide⟩
  · unfold step1Valid
    have he : eligible1 dbC1 1 1 = [⟨2, "кошка", "cat", false⟩] := by decide
    rw [he]
  · unfold step2Valid
    have he : eligible2 dbC1 1 "cat" = [] := by decide
    rw [he]
  · intro l
    exact List.Perm.refl l

theorem get_options_eq (db : DB) (cid uid : Nat) (e1 e2 : List Word)
    (sh : List String → List String) (cw : Word)
    (hf : db.words.find? (fun w => w.id == cid) = some cw) :
    get_options db cid uid e1 e2 sh =
      (sh (cw.english :: distractors e1 e2), some cw.english) := by
  simp [get_options, hf]

/-- C1 (amended): the option set returned by `get_options` always
contains the correct target term — the presented list is a shuffle of
the correct term consed onto the distractors — but it may contain
duplicate option texts (even the correct term more than once): the
step-1 query excludes the user's other words only by word id, not by
text, and the top-up query excludes only the correct word's id and the
correct answer's text, not the step-1 picks. -/
theorem get_options_contains_correct (db : DB) (cid uid : Nat)
    (e1 e2 : List Word) (sh : List String → List String)
    (hsh : shuffleValid sh) (c : String)
    (hc : (get_options db cid uid e1 e2 sh).2 = some c) :
    c ∈ (get_options db cid uid e1 e2 sh).1 := by
  cases hf : db.words.find? (fun w => w.id == cid) with
  | none =>
    have h0 : get_options db cid uid e1 e2 sh = ([], none) := by
      simp [get_options, hf]
    rw [h0] at hc
    exact Option.noConfusion hc
  | some cw =>
    rw [get_options_eq db cid uid e1 e2 sh cw hf] at hc ⊢
    have hcc : cw.english = c := Option.some.inj hc
    subst hcc
    exact ((hsh _).mem_iff).mpr (List.mem_cons_self _ _)

/-- C1 witness: the amended theorem applied to the concrete state of
the counterexample — "cat" is among the presented options. -/
theorem C1_witness :
    "cat" ∈ (get_options dbC1 1 1 [⟨2, "кошка", "cat", false⟩] []
      (fun l => l)).1 :=
  get_options_contains_correct dbC1 1 1 [⟨2, "кошка", "cat", false⟩] []
    (fun l => l) (fun l => List.Perm.refl l) "cat" rfl

end EnglishBot
